import Mathlib

/-!
Shallow embedding of the XML2RFC v2 rendering backend (xml2rfcv2.go):
the Xml2 renderer state, its block renderers, the section nesting logic,
the document matter transitions and the references emitter.  Byte buffers
and byte slices are modelled as lists of characters; the lazy content
callbacks of Header, List and Paragraph are modelled as the pair of the
content they append to the buffer and the boolean they return.
-/

namespace Mmark

/-- Output buffer (bytes.Buffer), modelled as the list of written characters. -/
abbrev Buffer := List Char

/-- out.WriteString(s) on the buffer. -/
def wr (out : Buffer) (s : String) : Buffer := out ++ s.data

/-- Modelled from the spec: an attribute set (IAL) is an ordered mapping of
attribute names to value strings; the IAL struct is declared outside this file. -/
abbrev IAL := List (String × String)

/-- Modelled from the spec: renderIAL is declared outside this file; it renders
the drained attribute sets into a string of attributes that is merged into the
next opening tag. -/
def renderIAL (ials : List IAL) : String :=
  String.join (ials.map fun i =>
    String.join (i.map fun kv => " " ++ kv.1 ++ "=\"" ++ kv.2 ++ "\""))

/-- Modelled from the spec: the three ordered document matter phases.  The
constants DOC_FRONT_MATTER, DOC_MAIN_MATTER and DOC_BACK_MATTER are declared
outside this file; the phase starts at front. -/
inductive Matter
| front
| main
| back
deriving DecidableEq

/-- Modelled from the spec: a citation kind is informative or normative (the
citation struct field typ holds the byte i or n; the struct is declared
outside this file). -/
inductive CiteKind
| informative
| normative
deriving DecidableEq

/-- Modelled from the spec: the citation record, keyed by target identifier in
the recorded citation map; filename may be empty, in which case a fallback
filename is derived. -/
structure citation where
  typ : CiteKind
  filename : String
deriving DecidableEq

/-- Modelled from the spec: referenceFile is declared outside this file; for a
citation lacking an explicit filename it derives one deterministically from
the target identifier, pure and collision free for distinct targets. -/
def referenceFile (c : String × citation) : String :=
  "reference." ++ c.1 ++ ".xml"

/-- Modelled from the spec: the standalone document configuration flag
XML_STANDALONE is declared outside this file as a distinct bit. -/
def XML_STANDALONE : Nat := 1

/-- Modelled from the spec: list kind and nesting flag bits, declared outside
this file as distinct bits; kind priority is ordered, then definition, then
unordered. -/
def LIST_TYPE_ORDERED : Nat := 1

def LIST_TYPE_DEFINITION : Nat := 2

def LIST_INSIDE_LIST : Nat := 4

/-- Modelled from the spec: author metadata of the title block (the struct is
declared outside this file); Email stands for Address.Email. -/
structure author where
  Initials : String
  Surname : String
  Fullname : String
  Organization : String
  Email : String

/-- Modelled from the spec: the date of the title block, with zero fields
omitted from the emitted date element. -/
structure date where
  year : Nat
  month : Nat
  day : Nat

/-- Modelled from the spec: the TOML title block metadata (the struct is
declared outside this file). -/
structure title where
  Ipr : String
  Category : String
  DocName : String
  Abbrev : String
  Title : String
  Author : List author
  Date : date
  Area : String
  Workgroup : String
  Keyword : List String

/-- time.Month(n).String() for a month number n. -/
def monthName : Nat → String
  | 1 => "January"
  | 2 => "February"
  | 3 => "March"
  | 4 => "April"
  | 5 => "May"
  | 6 => "June"
  | 7 => "July"
  | 8 => "August"
  | 9 => "September"
  | 10 => "October"
  | 11 => "November"
  | 12 => "December"
  | n => "%!Month(" ++ toString n ++ ")"

/-- The Xml2 renderer state: flags, current section level, current document
matter level, the queued IAL attribute blocks and the stored title block. -/
structure Xml2 where
  flags : Nat
  sectionLevel : Nat
  docLevel : Matter
  ial : List IAL
  titleBlock : Option title

/-- Xml2Renderer(flags): fresh renderer state, all other fields zero valued. -/
def Xml2Renderer (flags : Nat) : Xml2 :=
  { flags := flags, sectionLevel := 0, docLevel := Matter.front, ial := [], titleBlock := none }

/-- GetAndResetIAL: return the queued IAL blocks and clear the queue. -/
def GetAndResetIAL (o : Xml2) : List IAL × Xml2 :=
  (o.ial, { o with ial := [] })

/-- SetIAL: append IAL blocks to the queue. -/
def SetIAL (o : Xml2) (i : List IAL) : Xml2 :=
  { o with ial := o.ial ++ i }

/-- The close markers written by the section flush loops: n copies of the
section close marker. -/
def closeSections (n : Nat) : Buffer :=
  (List.replicate n "</section>\n".data).flatten

/-- BlockCode: figure/artwork wrapping of a code chunk. -/
def BlockCode (o : Xml2) (out : Buffer) (text : List Char) (lang : String)
    (caption : List Char) : Xml2 × Buffer :=
  let s := renderIAL o.ial
  let o : Xml2 := { o with ial := [] }
  let out := if lang = "" then wr out ("\n<figure" ++ s ++ "><artwork>\n")
    else wr out ("\n<figure" ++ s ++ "><artwork>\n")
  let out := out ++ text
  let out := if lang = "" then wr out "</artwork></figure>\n"
    else wr out "</artwork></figure>\n"
  (o, out)

/-- TitleBlockTOML: emit the document front matter metadata when standalone. -/
def TitleBlockTOML (o : Xml2) (out : Buffer) (block : title) : Xml2 × Buffer :=
  if o.flags &&& XML_STANDALONE = 0 then (o, out)
  else
    let o := { o with titleBlock := some block }
    let out := wr out ("<rfc ipr=\"" ++ block.Ipr ++ "\" category=\"" ++
      block.Category ++ "\" docName=\"" ++ block.DocName ++ "\">\n")
    let out := wr out "<front>\n"
    let out := wr out ("<title abbrev=\"" ++ block.Abbrev ++ "\">")
    let out := wr out (block.Title ++ "</title>\n\n")
    let out := block.Author.foldl (fun b a =>
      wr b ("<author" ++ " initials=\"" ++ a.Initials ++ "\"" ++
        " surname=\"" ++ a.Surname ++ "\"" ++
        " fullname=\"" ++ a.Fullname ++ "\">\n" ++
        "<organization>" ++ a.Organization ++ "</organization>\n" ++
        "<address>\n" ++ "<email>" ++ a.Email ++ "</email>\n" ++
        "</address>\n" ++ "</author>\n")) out
    let year := if block.Date.year > 0 then " year=\"" ++ toString block.Date.year ++ "\"" else ""
    let month := if block.Date.month > 0 then " month=\"" ++ monthName block.Date.month ++ "\"" else ""
    let day := if block.Date.day > 0 then " day=\"" ++ toString block.Date.day ++ "\"" else ""
    let out := wr out ("<date" ++ year ++ month ++ day ++ "/>\n\n")
    let out := wr out ("<area>" ++ block.Area ++ "</area>\n")
    let out := wr out ("<workgroup>" ++ block.Workgroup ++ "</workgroup>\n")
    let out := block.Keyword.foldl (fun b k => wr b ("<keyword>" ++ k ++ "</keyword>\n")) out
    (o, wr out "\n")

/-- BlockQuote: fake a list paragraph; the drained IAL render is discarded. -/
def BlockQuote (o : Xml2) (out : Buffer) (text : List Char) : Xml2 × Buffer :=
  let _ := renderIAL o.ial
  let o : Xml2 := { o with ial := [] }
  let out := wr out "<t><list style=\"empty\">\n"
  let out := out ++ text
  (o, wr out "</list></t>\n")

/-- Abstract: abstract container carrying the drained IAL attributes. -/
def Abstract (o : Xml2) (out : Buffer) (text : List Char) : Xml2 × Buffer :=
  let s := renderIAL o.ial
  let o : Xml2 := { o with ial := [] }
  let out := wr out ("<abstract" ++ s ++ ">\n")
  let out := out ++ text
  (o, wr out "</abstract>\n")

/-- bytes.Index(l, pat): index of the first occurrence of pat in l, none when
pat does not occur. -/
def indexOfSub (pat : List Char) : List Char → Option Nat
  | [] => if pat.isPrefixOf ([] : List Char) then some 0 else none
  | c :: t => if pat.isPrefixOf (c :: t) then some 0 else (indexOfSub pat t).map (· + 1)

/-- The truncation CommentHtml applies before slicing: cut at the first
occurrence of the comment terminator when it sits at a positive index. -/
def truncComment (text : List Char) : List Char :=
  match indexOfSub "-->".data text with
  | some i => if 0 < i then text.take i else text
  | none => text

/-- The colon scan loop of CommentHtml: first index i below the bound l with
text[i] a colon. -/
def findColon : List Char → Nat → Option Nat
  | _, 0 => none
  | [], _ + 1 => none
  | c :: t, l + 1 => if c = ':' then some 0 else (findColon t l).map (· + 1)

/-- The one leading space strip CommentHtml applies to a nonempty source. -/
def stripLeadSpace : List Char → List Char
  | [] => []
  | c :: t => if c = ' ' then t else c :: t

/-- CommentHtml: annotation rendering with optional source prefix extraction.
The unconditional slice text[4:] panics in Go when the possibly truncated
text is shorter than four bytes; that panic is modelled by none. -/
def CommentHtml (o : Xml2) (out : Buffer) (text : List Char) : Option (Xml2 × Buffer) :=
  let text := truncComment text
  if text.length < 4 then none
  else
    let text := text.drop 4
    let l := if text.length > 20 then 20 else text.length
    let (src, text) :=
      match findColon text l with
      | some i => (text.take i, text.drop (i + 1))
      | none => (([] : List Char), text)
    if src.length ≠ 0 then
      let src := stripLeadSpace src
      let out := wr out "<t><cref source=\""
      let out := out ++ src
      let out := wr out "\">"
      some (o, wr (out ++ text) "</cref></t>\n")
    else
      some (o, wr (wr out "<t><cref>\n" ++ text) "</cref></t>\n")

/-- Header: close the sections the new level ends, drain (and discard) the
IAL queue, open the new section with its anchor, run the title callback and
record the new section level.  The boolean of the callback is ignored. -/
def Header (o : Xml2) (out : Buffer) (text : List Char × Bool) (level : Nat)
    (id : String) : Xml2 × Buffer :=
  let out := if level ≤ o.sectionLevel then
      out ++ closeSections (o.sectionLevel - level + 1)
    else out
  let _ := renderIAL o.ial
  let o : Xml2 := { o with ial := [] }
  let out := wr out ("\n<section anchor=\"" ++ id ++ "\"")
  let out := wr out " title=\""
  let out := out ++ text.1
  let out := wr out "\">\n"
  ({ o with sectionLevel := level }, out)

/-- List: remember the marker, drain the IAL queue, open the wrappers, run the
content callback and either roll back to the marker or close the wrappers. -/
def List_ (o : Xml2) (out : Buffer) (text : List Char × Bool) (flags start : Nat) :
    Xml2 × Buffer :=
  let marker := out.length
  let s := renderIAL o.ial
  let o : Xml2 := { o with ial := [] }
  let out := if flags &&& LIST_INSIDE_LIST = 0 then wr out "<t>\n" else out
  let out :=
    if flags &&& LIST_TYPE_ORDERED ≠ 0 then
      if start ≤ 1 then wr out ("<list style=\"numbers\"" ++ s ++ ">\n")
      else wr out ("<list style=\"numbers\"" ++ s ++ " start=\"" ++ toString start ++ "\">\n")
    else if flags &&& LIST_TYPE_DEFINITION ≠ 0 then
      wr out ("<list style=\"hanging\"" ++ s ++ ">\n")
    else wr out ("<list style=\"symbols\"" ++ s ++ ">\n")
  let out := out ++ text.1
  if text.2 = false then (o, out.take marker)
  else
    let out :=
      if flags &&& LIST_TYPE_ORDERED ≠ 0 then wr out "</list>\n"
      else if flags &&& LIST_TYPE_DEFINITION ≠ 0 then wr out "</t>\n</list>\n"
      else wr out "</list>\n"
    let out := if flags &&& LIST_INSIDE_LIST = 0 then wr out "</t>\n" else out
    (o, out)

/-- Paragraph: remember the marker, open the paragraph wrapper outside
definition lists, run the content callback and either roll back to the marker
or close the wrapper.  The IAL queue is not touched. -/
def Paragraph (o : Xml2) (out : Buffer) (text : List Char × Bool) (flags : Nat) :
    Xml2 × Buffer :=
  let marker := out.length
  let out := if flags &&& LIST_TYPE_DEFINITION = 0 then wr out "<t>" else out
  let out := out ++ text.1
  if text.2 = false then (o, out.take marker)
  else (o, if flags &&& LIST_TYPE_DEFINITION = 0 then wr out "</t>\n" else out)

/-- Table: texttable container carrying the drained IAL attributes, with
header and body concatenated verbatim. -/
def Table (o : Xml2) (out : Buffer) (header body : List Char) (columnData : List Int)
    (caption : List Char) : Xml2 × Buffer :=
  let s := renderIAL o.ial
  let o : Xml2 := { o with ial := [] }
  let out := wr out ("<texttable" ++ s ++ ">\n")
  let out := out ++ header
  let out := out ++ body
  (o, wr out "</texttable>\n")

/-- The informative group of the recorded citations. -/
def informativeOf (cs : List (String × citation)) : List (String × citation) :=
  cs.filter (fun c => c.2.typ == CiteKind.informative)

/-- The normative group of the recorded citations. -/
def normativeOf (cs : List (String × citation)) : List (String × citation) :=
  cs.filter (fun c => c.2.typ == CiteKind.normative)

/-- One emitted reference inclusion line: the citation filename, or the
derived fallback when the filename is empty. -/
def refEntry (c : String × citation) : String :=
  let f := if c.2.filename = "" then referenceFile c else c.2.filename
  "\t<?rfc include=\"" ++ f ++ "\"?>\n"

/-- The reference inclusion lines of one group, in iteration order. -/
def refEntries (cs : List (String × citation)) : Buffer :=
  (cs.map fun c => (refEntry c).data).flatten

/-- References: when standalone, flush the open sections, force back matter
and emit the grouped reference sections.  The citation map is modelled as an
association list from target identifier to citation, in iteration order. -/
def References (o : Xml2) (out : Buffer) (cs : List (String × citation)) :
    Xml2 × Buffer :=
  if o.flags &&& XML_STANDALONE = 0 then (o, out)
  else
    let out := out ++ closeSections o.sectionLevel
    let o1 := { o with sectionLevel := 0 }
    let out :=
      match o1.docLevel with
      | Matter.front => wr (wr out "</front>\n") "<back>\n"
      | Matter.main => wr (wr out "</middle>\n") "<back>\n"
      | Matter.back => out
    let o1 := { o1 with docLevel := Matter.back }
    let refi := (informativeOf cs).length
    let refn := (normativeOf cs).length
    if refi + refn > 0 then
      let out :=
        if refi > 0 then
          wr ((wr out "<references title=\"Informative References\">\n") ++
            refEntries (informativeOf cs)) "</references>\n"
        else out
      let out :=
        if refn > 0 then
          wr ((wr out "<references title=\"Normative References\">\n") ++
            refEntries (normativeOf cs)) "</references>\n"
        else out
      (o1, out)
    else (o1, out)

/-- DocumentHeader: XML preamble, only when first and standalone. -/
def DocumentHeader (o : Xml2) (out : Buffer) (first : Bool) : Xml2 × Buffer :=
  if first = false ∨ o.flags &&& XML_STANDALONE = 0 then (o, out)
  else
    let out := wr out "<?xml version=\"1.0\" encoding=\"UTF-8\"?>\n"
    (o, wr out "<!DOCTYPE rfc SYSTEM \x27rfc2629.dtd\x27 [ ]>\n")

/-- DocumentFooter: flush open sections, close the container of the current
matter phase and close the document, only when first and standalone. -/
def DocumentFooter (o : Xml2) (out : Buffer) (first : Bool) : Xml2 × Buffer :=
  if first = false ∨ o.flags &&& XML_STANDALONE = 0 then (o, out)
  else
    let out := out ++ closeSections o.sectionLevel
    let o := { o with sectionLevel := 0 }
    let out :=
      match o.docLevel with
      | Matter.front => wr out "\n</front>\n"
      | Matter.main => wr out "\n</middle>\n"
      | Matter.back => wr out "\n</back>\n"
    (o, wr out "</rfc>\n")

/-- The phase markers DocumentMatter writes, chosen by the target matter
alone (the current phase is not consulted). -/
def matterMarkers : Matter → Buffer
  | Matter.front => []
  | Matter.main => "</front>\n".data ++ "\n<middle>\n".data
  | Matter.back => "\n</middle>\n".data ++ "<back>\n".data

/-- DocumentMatter: flush open sections, emit the markers of the target
matter and record the new matter phase. -/
def DocumentMatter (o : Xml2) (out : Buffer) (matter : Matter) : Xml2 × Buffer :=
  let out := out ++ closeSections o.sectionLevel
  let o := { o with sectionLevel := 0 }
  let out := out ++ matterMarkers matter
  ({ o with docLevel := matter }, out)

/-- The matter markers the References flush writes for the current phase:
front and main close themselves and open back, back writes nothing. -/
def refMatterMarkers : Matter → Buffer
  | Matter.front => "</front>\n".data ++ "<back>\n".data
  | Matter.main => "</middle>\n".data ++ "<back>\n".data
  | Matter.back => []

/-- Following the words of the spec: the grouped reference output, one titled
container per non empty group, each containing one inclusion line per
citation of the group. -/
def specGroupedReferences (cs : List (String × citation)) : Buffer :=
  (if informativeOf cs ≠ [] then
      "<references title=\"Informative References\">\n".data ++
        refEntries (informativeOf cs) ++ "</references>\n".data
    else []) ++
  (if normativeOf cs ≠ [] then
      "<references title=\"Normative References\">\n".data ++
        refEntries (normativeOf cs) ++ "</references>\n".data
    else [])

/-- Following the words of the spec: the list opening tag List writes for the
selected kind, carrying the rendered attribute string s; kind priority is
ordered, then definition, then unordered, and an ordered list with start
above one carries the start value. -/
def listKindOpen (s : String) (flags start : Nat) : String :=
  if flags &&& LIST_TYPE_ORDERED ≠ 0 then
    if start ≤ 1 then "<list style=\"numbers\"" ++ s ++ ">\n"
    else "<list style=\"numbers\"" ++ s ++ " start=\"" ++ toString start ++ "\">\n"
  else if flags &&& LIST_TYPE_DEFINITION ≠ 0 then
    "<list style=\"hanging\"" ++ s ++ ">\n"
  else "<list style=\"symbols\"" ++ s ++ ">\n"

/-- Following the words of the spec: the list closing tag List writes for the
selected kind. -/
def listKindClose (flags : Nat) : String :=
  if flags &&& LIST_TYPE_ORDERED ≠ 0 then "</list>\n"
  else if flags &&& LIST_TYPE_DEFINITION ≠ 0 then "</t>\n</list>\n"
  else "</list>\n"

/-! Helper lemmas shared by the claim theorems. -/

/-- Running Header: the closed sections, the drained queue, the opening tag
with its anchor, the callback content and the recorded level. -/
lemma header_run (o : Xml2) (out : Buffer) (t : List Char × Bool) (level : Nat)
    (id : String) :
    Header o out t level id =
      ({ o with ial := [], sectionLevel := level },
        (if level ≤ o.sectionLevel then
            out ++ closeSections (o.sectionLevel - level + 1)
          else out) ++
          "\n<section anchor=\"".data ++ id.data ++ "\" title=\"".data ++
          t.1 ++ "\">\n".data) := by
  simp only [Header, wr, String.data_append, List.append_assoc]
  rfl

/-- Running List with a content callback that reports no content: the buffer
is rolled back to the marker. -/
lemma list_rollback (o : Xml2) (out : Buffer) (t : List Char) (flags start : Nat) :
    List_ o out (t, false) flags start = ({ o with ial := [] }, out) := by
  by_cases h1 : flags &&& LIST_INSIDE_LIST = 0 <;>
  by_cases h2 : flags &&& LIST_TYPE_ORDERED ≠ 0 <;>
  by_cases h3 : start ≤ 1 <;>
  by_cases h4 : flags &&& LIST_TYPE_DEFINITION ≠ 0 <;>
  simp [List_, wr, h1, h2, h3, h4, List.append_assoc, List.take_left, List.take_left']

/-- Running Paragraph with a content callback that reports no content: the
buffer is rolled back to the marker. -/
lemma paragraph_rollback (o : Xml2) (out : Buffer) (t : List Char) (flags : Nat) :
    Paragraph o out (t, false) flags = (o, out) := by
  by_cases h1 : flags &&& LIST_TYPE_DEFINITION = 0 <;>
  simp [Paragraph, wr, h1, List.append_assoc, List.take_left, List.take_left']

/-- Running List with a content callback that reports content: the paragraph
wrapper outside nested lists, the kind opening tag carrying the drained
attributes, the content and the closing tags. -/
lemma list_run (o : Xml2) (out : Buffer) (t : List Char) (flags start : Nat) :
    List_ o out (t, true) flags start =
      ({ o with ial := [] },
        (if flags &&& LIST_INSIDE_LIST = 0 then out ++ "<t>\n".data else out) ++
          (listKindOpen (renderIAL o.ial) flags start).data ++ t ++
          (listKindClose flags).data ++
          (if flags &&& LIST_INSIDE_LIST = 0 then "</t>\n".data else [])) := by
  by_cases h1 : flags &&& LIST_INSIDE_LIST = 0 <;>
  by_cases h2 : flags &&& LIST_TYPE_ORDERED ≠ 0 <;>
  by_cases h3 : start ≤ 1 <;>
  by_cases h4 : flags &&& LIST_TYPE_DEFINITION ≠ 0 <;>
  simp [List_, listKindOpen, listKindClose, wr, h1, h2, h3, h4, List.append_assoc]

/-- Running DocumentMatter: flush the sections, emit the markers of the
target matter and record it. -/
lemma documentMatter_run (o : Xml2) (out : Buffer) (m : Matter) :
    DocumentMatter o out m =
      ({ o with sectionLevel := 0, docLevel := m },
        out ++ closeSections o.sectionLevel ++ matterMarkers m) := rfl

/-- Running References in standalone mode: flush the sections, emit the
matter markers of the current phase and the grouped reference sections. -/
lemma references_run (o : Xml2) (out : Buffer) (cs : List (String × citation))
    (h : o.flags &&& XML_STANDALONE ≠ 0) :
    References o out cs =
      ({ o with sectionLevel := 0, docLevel := Matter.back },
        out ++ closeSections o.sectionLevel ++ refMatterMarkers o.docLevel ++
          specGroupedReferences cs) := by
  have hig : informativeOf cs = [] ∨ 0 < (informativeOf cs).length := by
    rcases List.eq_nil_or_concat (informativeOf cs) with h' | ⟨l, a, h'⟩
    · exact Or.inl h'
    · exact Or.inr (by simp [h'])
  cases hd : o.docLevel <;>
  by_cases hi : informativeOf cs = [] <;>
  by_cases hn : normativeOf cs = [] <;>
  simp [References, h, hd, hi, hn, wr, refMatterMarkers, specGroupedReferences,
    List.append_assoc, List.length_pos, add_pos_iff, List.length_eq_zero]

/-- The two citation groups together are a permutation of the recorded
citations. -/
lemma groups_append_perm (cs : List (String × citation)) :
    (informativeOf cs ++ normativeOf cs).Perm cs := by
  have hq : normativeOf cs =
      cs.filter (fun c => !(c.2.typ == CiteKind.informative)) := by
    apply List.filter_congr
    intro x _
    cases hx : x.2.typ <;> rfl
  rw [informativeOf, hq]
  exact List.filter_append_perm _ cs

/-- An occurrence reported by indexOfSub is a prefix at that index. -/
lemma indexOfSub_some_prefix (pat : List Char) :
    ∀ (l : List Char) (i : Nat), indexOfSub pat l = some i →
      pat.isPrefixOf (l.drop i) = true := by
  intro l
  induction l with
  | nil =>
    intro i h
    rw [indexOfSub] at h
    split at h
    · cases h
      simpa using ‹pat.isPrefixOf ([] : List Char) = true›
    · cases h
  | cons c t ih =>
    intro i h
    rw [indexOfSub] at h
    split at h
    · cases h
      simpa using ‹pat.isPrefixOf (c :: t) = true›
    · rcases Option.map_eq_some'.mp h with ⟨j, hj, hij⟩
      subst hij
      simpa using ih j hj

/-- When indexOfSub reports no occurrence, the pattern is a prefix at no
index. -/
lemma indexOfSub_none_prefix (pat : List Char) :
    ∀ (l : List Char), indexOfSub pat l = none →
      ∀ j, pat.isPrefixOf (l.drop j) = false := by
  intro l
  induction l with
  | nil =>
    intro h j
    rw [indexOfSub] at h
    split at h
    · cases h
    · simpa [List.drop_nil] using Bool.not_eq_true _ ▸ (by simpa using ‹¬pat.isPrefixOf ([] : List Char) = true›)
  | cons c t ih =>
    intro h j
    rw [indexOfSub] at h
    split at h
    · cases h
    · have ht : indexOfSub pat t = none := by
        cases hopt : indexOfSub pat t
        · rfl
        · rw [hopt] at h; cases h
      cases j with
      | zero =>
        simpa using Bool.not_eq_true _ ▸ (by simpa using ‹¬pat.isPrefixOf (c :: t) = true›)
      | succ j => simpa using ih ht j

/-- A colon index reported by findColon is inside the scanned text. -/
lemma findColon_some_lt :
    ∀ (t : List Char) (l j : Nat), findColon t l = some j → j < t.length := by
  intro t
  induction t with
  | nil =>
    intro l j h
    cases l <;> simp [findColon] at h
  | cons c t ih =>
    intro l j h
    cases l with
    | zero => simp [findColon] at h
    | succ l =>
      rw [findColon] at h
      split at h
      · cases h; simp
      · rcases Option.map_eq_some'.mp h with ⟨j', hj', hjj⟩
        subst hjj
        have := ih l j' hj'
        simp
        omega

/-- CommentHtml succeeds exactly when the possibly truncated text holds at
least the four bytes of the comment opener. -/
lemma commentHtml_isSome_iff (o : Xml2) (out : Buffer) (text : List Char) :
    (CommentHtml o out text).isSome ↔ 4 ≤ (truncComment text).length := by
  by_cases hlen : (truncComment text).length < 4
  · unfold CommentHtml
    simp [hlen]
  · have hs : (CommentHtml o out text).isSome := by
      unfold CommentHtml
      rw [if_neg hlen]
      simp [apply_ite Option.isSome]
    simp [hs]
    omega

/-! Claim theorems. -/

/-- C1: for every heading call Header(out, text, level, id), if the level is
at most the current section depth, exactly sectionDepth - level + 1 section
close markers are emitted before the new section open marker; in all cases
the section depth is then set to level and exactly one open container
marker carrying the anchor id is emitted. -/
theorem header_section_nesting (o : Xml2) (out : Buffer) (t : List Char × Bool)
    (level : Nat) (id : String) :
    (Header o out t level id).1.sectionLevel = level ∧
    (level ≤ o.sectionLevel →
      (Header o out t level id).2 =
        out ++ closeSections (o.sectionLevel - level + 1) ++
          "\n<section anchor=\"".data ++ id.data ++ "\" title=\"".data ++
          t.1 ++ "\">\n".data) ∧
    (o.sectionLevel < level →
      (Header o out t level id).2 =
        out ++ "\n<section anchor=\"".data ++ id.data ++ "\" title=\"".data ++
          t.1 ++ "\">\n".data) := by
  rw [header_run]
  refine ⟨rfl, fun h => ?_, fun h => ?_⟩
  · simp [if_pos h, List.append_assoc]
  · simp [if_neg (Nat.not_le.mpr h), List.append_assoc]

/-- C1 witness: a heading at level 2 under section depth 3 closes two
sections and opens one anchored section. -/
theorem header_section_nesting_witness :
    (2 : Nat) ≤ 3 ∧
    (Header ⟨1, 3, Matter.front, [], none⟩ [] ("T".data, true) 2 "a").2 =
      ([] : Buffer) ++ closeSections (3 - 2 + 1) ++
        "\n<section anchor=\"".data ++ "a".data ++ "\" title=\"".data ++
        "T".data ++ "\">\n".data :=
  ⟨by decide,
    (header_section_nesting ⟨1, 3, Matter.front, [], none⟩ [] ("T".data, true) 2 "a").2.1
      (by decide)⟩

/-- C9: Header always emits the section open marker and updates the section
depth even when the title callback reports no content: the call does not
depend on the callback boolean, the buffer strictly grows, and the section
depth is set to the heading level. -/
theorem header_never_rolled_back (o : Xml2) (out : Buffer) (s : List Char)
    (b : Bool) (level : Nat) (id : String) :
    Header o out (s, b) level id = Header o out (s, true) level id ∧
    out.length < (Header o out (s, b) level id).2.length ∧
    (Header o out (s, b) level id).1.sectionLevel = level := by
  refine ⟨by rw [header_run, header_run], ?_, by rw [header_run]⟩
  rw [header_run]
  by_cases h : level ≤ o.sectionLevel <;>
    simp [h, List.length_append]

/-- C5: a List call or a Paragraph call whose content callback returns false
leaves the output buffer exactly as it was: same content, hence length after
equals length before. -/
theorem empty_block_rollback (o : Xml2) (out : Buffer) (t : List Char)
    (flags start : Nat) :
    (List_ o out (t, false) flags start).2 = out ∧
    (List_ o out (t, false) flags start).2.length = out.length ∧
    (Paragraph o out (t, false) flags).2 = out ∧
    (Paragraph o out (t, false) flags).2.length = out.length := by
  rw [list_rollback, paragraph_rollback]
  exact ⟨rfl, rfl, rfl, rfl⟩

/-- C2 counterexample: Paragraph never drains the attribute queue; a queued
attribute block survives a Paragraph call untouched, so the claim that every
block renderer drains the queue exactly once per call is false. -/
theorem paragraph_queue_not_drained_cex :
    (Paragraph ⟨1, 0, Matter.front, [[("k", "v")]], none⟩ [] ("x".data, true) 0).1.ial
        = [[("k", "v")]] ∧
    ([[("k", "v")]] : List IAL) ≠ [] :=
  ⟨rfl, by simp⟩

/-- C2 amended: List, Table, BlockCode and Abstract drain the attribute queue
exactly once per call and render the returned attributes inside the opening
tag; Header and BlockQuote drain the queue exactly once but discard the
rendered attributes, which do not reach the output; Paragraph does not touch
the queue at all. -/
theorem block_renderers_attribute_queue (o : Xml2) (out : Buffer) :
    (∀ t flags, (Paragraph o out t flags).1.ial = o.ial) ∧
    (∀ t level id, (Header o out t level id).1.ial = [] ∧
      (Header o out t level id).2 = (Header { o with ial := [] } out t level id).2) ∧
    (∀ text, (BlockQuote o out text).1.ial = [] ∧
      (BlockQuote o out text).2 = (BlockQuote { o with ial := [] } out text).2) ∧
    (∀ text lang caption, (BlockCode o out text lang caption).1.ial = [] ∧
      (BlockCode o out text lang caption).2 =
        out ++ ("\n<figure" ++ renderIAL o.ial ++ "><artwork>\n").data ++ text ++
          "</artwork></figure>\n".data) ∧
    (∀ text, (Abstract o out text).1.ial = [] ∧
      (Abstract o out text).2 =
        out ++ ("<abstract" ++ renderIAL o.ial ++ ">\n").data ++ text ++
          "</abstract>\n".data) ∧
    (∀ header body cd caption, (Table o out header body cd caption).1.ial = [] ∧
      (Table o out header body cd caption).2 =
        out ++ ("<texttable" ++ renderIAL o.ial ++ ">\n").data ++ header ++ body ++
          "</texttable>\n".data) ∧
    (∀ t flags start, (List_ o out t flags start).1.ial = [] ∧
      (t.2 = true →
        (List_ o out t flags start).2 =
          (if flags &&& LIST_INSIDE_LIST = 0 then out ++ "<t>\n".data else out) ++
            (listKindOpen (renderIAL o.ial) flags start).data ++ t.1 ++
            (listKindClose flags).data ++
            (if flags &&& LIST_INSIDE_LIST = 0 then "</t>\n".data else []))) := by
  refine ⟨?_, ?_, ?_, ?_, ?_, ?_, ?_⟩
  · intro t flags
    by_cases h : t.2 = false <;> simp [Paragraph, h]
  · intro t level id
    rw [header_run, header_run]
    exact ⟨rfl, rfl⟩
  · intro text
    simp [BlockQuote]
  · intro text lang caption
    by_cases h : lang = "" <;> simp [BlockCode, h, wr, List.append_assoc]
  · intro text
    simp [Abstract, wr, List.append_assoc]
  · intro header body cd caption
    simp [Table, wr, List.append_assoc]
  · intro t flags start
    constructor
    · by_cases h : t.2 = false
      · obtain ⟨t1, t2⟩ := t
        simp only at h
        subst h
        rw [list_rollback]
      · obtain ⟨t1, t2⟩ := t
        simp only at h
        rw [Bool.not_eq_false] at h
        subst h
        rw [list_run]
    · intro h
      obtain ⟨t1, t2⟩ := t
      simp only at h
      subst h
      rw [list_run]

/-- C2 amended witness: on a state with one queued attribute block, List
clears the queue and the abstract opening tag carries the rendered
attributes. -/
theorem block_renderers_attribute_queue_witness :
    (List_ ⟨1, 0, Matter.front, [[("k", "v")]], none⟩ [] ("X".data, true) 0 0).1.ial = [] ∧
    (List_ ⟨1, 0, Matter.front, [[("k", "v")]], none⟩ [] ("X".data, true) 0 0).2 =
      (if 0 &&& LIST_INSIDE_LIST = 0 then ([] : Buffer) ++ "<t>\n".data else []) ++
        (listKindOpen (renderIAL [[("k", "v")]]) 0 0).data ++ "X".data ++
        (listKindClose 0).data ++
        (if 0 &&& LIST_INSIDE_LIST = 0 then "</t>\n".data else []) := by
  have h := (block_renderers_attribute_queue ⟨1, 0, Matter.front, [[("k", "v")]], none⟩
    []).2.2.2.2.2.2 ("X".data, true) 0 0
  exact ⟨h.1, h.2 rfl⟩

/-- C3 counterexample: a direct front to back transition through
DocumentMatter emits the middle close marker and the back open marker, and
no front close marker at all, so the claim is false for the DocumentMatter
path. -/
theorem front_to_back_cex :
    (DocumentMatter ⟨1, 0, Matter.front, [], none⟩ [] Matter.back).2 =
      "\n</middle>\n<back>\n".data ∧
    ¬ ("</front>".data <:+:
        (DocumentMatter ⟨1, 0, Matter.front, [], none⟩ [] Matter.back).2) :=
  ⟨rfl, by decide⟩

/-- C3 amended: advancing directly from front to back through the citation
flush in References closes front and opens back, skipping middle entirely;
advancing through DocumentMatter with target back instead always emits the
middle close marker followed by the back open marker, whatever the current
phase, so that path never closes front. -/
theorem front_to_back_markers (o : Xml2) (out : Buffer)
    (cs : List (String × citation)) :
    (o.flags &&& XML_STANDALONE ≠ 0 → o.docLevel = Matter.front →
      (References o out cs).2 =
        out ++ closeSections o.sectionLevel ++ "</front>\n<back>\n".data ++
          specGroupedReferences cs) ∧
    ((DocumentMatter o out Matter.back).2 =
      out ++ closeSections o.sectionLevel ++ "\n</middle>\n<back>\n".data) := by
  constructor
  · intro h hd
    rw [references_run o out cs h, hd]
    rfl
  · rw [documentMatter_run]
    rfl

/-- C3 amended witness: a renderer in front matter with one open section,
flushed through References. -/
theorem front_to_back_markers_witness :
    (References ⟨1, 1, Matter.front, [], none⟩ [] []).2 =
      ([] : Buffer) ++ closeSections 1 ++ "</front>\n<back>\n".data ++
        specGroupedReferences [] :=
  (front_to_back_markers ⟨1, 1, Matter.front, [], none⟩ [] []).1 (by decide) rfl

/-- C4 counterexample: calling DocumentMatter with the main phase already
current re-emits the front close and middle open markers, so the claim that
a same phase transition emits no phase markers is false. -/
theorem same_phase_cex :
    (DocumentMatter ⟨1, 0, Matter.main, [], none⟩ [] Matter.main).2 =
      "</front>\n\n<middle>\n".data ∧
    (DocumentMatter ⟨1, 0, Matter.main, [], none⟩ [] Matter.main).2 ≠ [] :=
  ⟨rfl, by decide⟩

/-- C4 amended: the References flush when already in back matter emits no
phase markers while still closing all open sections and resetting the
section depth to zero; DocumentMatter always flushes sections and resets the
depth, but its phase markers depend only on the target phase, so only a
front target is a marker no-op and a main or back target re-emits those
markers even when already current. -/
theorem same_phase_transition (o : Xml2) (out : Buffer)
    (cs : List (String × citation)) (m : Matter) :
    (o.flags &&& XML_STANDALONE ≠ 0 → o.docLevel = Matter.back →
      (References o out cs).1.sectionLevel = 0 ∧
      (References o out cs).2 =
        out ++ closeSections o.sectionLevel ++ specGroupedReferences cs) ∧
    ((DocumentMatter o out m).1.sectionLevel = 0 ∧
      (DocumentMatter o out m).2 =
        out ++ closeSections o.sectionLevel ++ matterMarkers m) ∧
    ((DocumentMatter o out Matter.front).2 = out ++ closeSections o.sectionLevel) := by
  refine ⟨fun h hd => ?_, ⟨?_, ?_⟩, ?_⟩
  · rw [references_run o out cs h, hd]
    exact ⟨rfl, by simp [refMatterMarkers]⟩
  · rw [documentMatter_run]
  · rw [documentMatter_run]
  · rw [documentMatter_run]
    simp [matterMarkers]

/-- C4 amended witness: the References flush with back matter already
current, on a state with two open sections. -/
theorem same_phase_transition_witness :
    (References ⟨1, 2, Matter.back, [], none⟩ [] []).1.sectionLevel = 0 ∧
    (References ⟨1, 2, Matter.back, [], none⟩ [] []).2 =
      ([] : Buffer) ++ closeSections 2 ++ specGroupedReferences [] :=
  (same_phase_transition ⟨1, 2, Matter.back, [], none⟩ [] [] Matter.front).1
    (by decide) rfl

/-- C7: with the standalone flag off, DocumentHeader, DocumentFooter,
TitleBlockTOML and References each write nothing to the output buffer. -/
theorem standalone_off_no_wrapper (o : Xml2) (out : Buffer) (first : Bool)
    (block : title) (cs : List (String × citation))
    (h : o.flags &&& XML_STANDALONE = 0) :
    (DocumentHeader o out first).2 = out ∧
    (DocumentFooter o out first).2 = out ∧
    (TitleBlockTOML o out block).2 = out ∧
    (References o out cs).2 = out := by
  refine ⟨?_, ?_, ?_, ?_⟩ <;>
    simp [DocumentHeader, DocumentFooter, TitleBlockTOML, References, h]

/-- C7 witness: a renderer with flags zero leaves a nonempty buffer
untouched through all four document level emitters. -/
theorem standalone_off_no_wrapper_witness :
    (DocumentHeader ⟨0, 1, Matter.front, [], none⟩ "x".data true).2 = "x".data ∧
    (DocumentFooter ⟨0, 1, Matter.front, [], none⟩ "x".data true).2 = "x".data ∧
    (TitleBlockTOML ⟨0, 1, Matter.front, [], none⟩ "x".data
      ⟨"", "", "", "", "", [], ⟨0, 0, 0⟩, "", "", []⟩).2 = "x".data ∧
    (References ⟨0, 1, Matter.front, [], none⟩ "x".data []).2 = "x".data :=
  standalone_off_no_wrapper ⟨0, 1, Matter.front, [], none⟩ "x".data true
    ⟨"", "", "", "", "", [], ⟨0, 0, 0⟩, "", "", []⟩ [] (by decide)

/-- C6: in standalone mode, References partitions the recorded citations
into the informative and normative groups, whose concatenation is a
permutation of the recorded target identifiers; the output appends exactly
the section flush, the matter markers and one titled container per non
empty group; with zero citations only the flush and matter markers are
emitted, so no reference section containers appear; and a citation with an
empty filename gets the deterministically derived fallback filename in its
inclusion line. -/
theorem references_grouping (o : Xml2) (out : Buffer)
    (cs : List (String × citation)) (h : o.flags &&& XML_STANDALONE ≠ 0) :
    ((informativeOf cs ++ normativeOf cs).map Prod.fst).Perm (cs.map Prod.fst) ∧
    (References o out cs).2 =
      out ++ closeSections o.sectionLevel ++ refMatterMarkers o.docLevel ++
        specGroupedReferences cs ∧
    (cs = [] → (References o out cs).2 =
      out ++ closeSections o.sectionLevel ++ refMatterMarkers o.docLevel) ∧
    (∀ c ∈ cs, c.2.filename = "" →
      refEntry c = "\t<?rfc include=\"" ++ referenceFile c ++ "\"?>\n") := by
  refine ⟨(groups_append_perm cs).map Prod.fst, ?_, ?_, ?_⟩
  · rw [references_run o out cs h]
  · intro hcs
    subst hcs
    rw [references_run o out [] h]
    simp [specGroupedReferences, informativeOf, normativeOf]
  · intro c _ hf
    simp [refEntry, hf]

/-- C6 witness: one informative citation with an empty filename, recorded in
main matter. -/
theorem references_grouping_witness :
    ((informativeOf [("A", ⟨CiteKind.informative, ""⟩)] ++
        normativeOf [("A", ⟨CiteKind.informative, ""⟩)]).map Prod.fst).Perm
      ([("A", (⟨CiteKind.informative, ""⟩ : citation))].map Prod.fst) ∧
    (References ⟨1, 0, Matter.main, [], none⟩ []
        [("A", ⟨CiteKind.informative, ""⟩)]).2 =
      ([] : Buffer) ++ closeSections 0 ++ refMatterMarkers Matter.main ++
        specGroupedReferences [("A", ⟨CiteKind.informative, ""⟩)] ∧
    refEntry ("A", ⟨CiteKind.informative, ""⟩) =
      "\t<?rfc include=\"" ++ referenceFile ("A", ⟨CiteKind.informative, ""⟩) ++
        "\"?>\n" := by
  have h := references_grouping ⟨1, 0, Matter.main, [], none⟩ []
    [("A", ⟨CiteKind.informative, ""⟩)] (by decide)
  exact ⟨h.1, h.2.1, h.2.2.2 _ (by simp) rfl⟩

/-- C8 counterexample: a payload whose colon is its first character is
rendered as an unlabeled annotation whose body is the text after the colon;
no source attribute is emitted, so the claim that any colon in the window
produces a source attribute is false. -/
theorem commentHtml_colon_first_cex :
    (CommentHtml ⟨1, 0, Matter.front, [], none⟩ [] "<!--:x".data).map Prod.snd =
      some "<t><cref>\nx</cref></t>\n".data ∧
    ¬ ("source=".data <:+: "<t><cref>\nx</cref></t>\n".data) :=
  ⟨rfl, by decide⟩

/-- C8 amended: after stripping the comment opener, a colon at a positive
index within the first twenty characters makes the text before the colon,
with one leading space stripped, the source attribute and the text after the
colon the body; a colon at index zero drops the empty prefix and the colon
and renders the rest as unlabeled annotation text; with no colon in the
window the entire payload is unlabeled annotation text. -/
theorem commentHtml_source_extraction (o : Xml2) (out : Buffer)
    (payload : List Char)
    (hno : indexOfSub "-->".data ("<!--".data ++ payload) = none) :
    (findColon payload (if payload.length > 20 then 20 else payload.length) = none →
      CommentHtml o out ("<!--".data ++ payload) =
        some (o, out ++ "<t><cref>\n".data ++ payload ++ "</cref></t>\n".data)) ∧
    (∀ i, findColon payload
        (if payload.length > 20 then 20 else payload.length) = some (i + 1) →
      CommentHtml o out ("<!--".data ++ payload) =
        some (o, out ++ "<t><cref source=\"".data ++
          stripLeadSpace (payload.take (i + 1)) ++ "\">".data ++
          payload.drop (i + 1 + 1) ++ "</cref></t>\n".data)) ∧
    (findColon payload (if payload.length > 20 then 20 else payload.length) = some 0 →
      CommentHtml o out ("<!--".data ++ payload) =
        some (o, out ++ "<t><cref>\n".data ++ payload.drop 1 ++
          "</cref></t>\n".data)) := by
  have htr : truncComment ("<!--".data ++ payload) = "<!--".data ++ payload := by
    unfold truncComment
    rw [hno]
  have h4 : ("<!--".data : List Char).length = 4 := rfl
  have hlen : ¬ (("<!--".data ++ payload).length < 4) := by
    simp [List.length_append, h4]
  have hdrop : ("<!--".data ++ payload).drop 4 = payload := rfl
  refine ⟨fun hc => ?_, fun i hc => ?_, fun hc => ?_⟩
  · simp only [CommentHtml]
    rw [htr, if_neg hlen, hdrop, hc]
    simp [wr, List.append_assoc]
  · have hlt := findColon_some_lt payload _ (i + 1) hc
    have hne : ¬ ((payload.take (i + 1)).length = 0) := by
      rw [List.length_take]
      omega
    simp only [CommentHtml]
    rw [htr, if_neg hlen, hdrop, hc]
    simp only [if_pos hne]
    simp [wr, List.append_assoc]
  · simp only [CommentHtml]
    rw [htr, if_neg hlen, hdrop, hc]
    simp [wr, List.append_assoc]

/-- C8 amended witness: the concrete scenario of the spec, source rfc1234
and remaining text with its leading space. -/
theorem commentHtml_source_extraction_witness :
    (CommentHtml ⟨1, 0, Matter.front, [], none⟩ []
        ("<!--".data ++ " rfc1234: some note text".data)).map Prod.snd =
      some "<t><cref source=\"rfc1234\"> some note text</cref></t>\n".data := by
  have h := (commentHtml_source_extraction ⟨1, 0, Matter.front, [], none⟩ []
    " rfc1234: some note text".data (by decide)).2.1 7 (by decide)
  rw [h]
  decide

/-- C10: CommentHtml slices off four bytes after the truncation at a
positive index occurrence of the terminator; it stays in bounds exactly when
the truncated text is at least four bytes long, and it is safe whenever the
input starts with the four byte comment opener and every occurrence of the
terminator sits at index four or later. -/
theorem commentHtml_slice_safety (o : Xml2) (out : Buffer) (text : List Char) :
    ((CommentHtml o out text).isSome ↔ 4 ≤ (truncComment text).length) ∧
    (("<!--".data.isPrefixOf text = true ∧
        (∀ j, "-->".data.isPrefixOf (text.drop j) = true → 4 ≤ j)) →
      (CommentHtml o out text).isSome) := by
  refine ⟨commentHtml_isSome_iff o out text, fun ⟨hp, hall⟩ => ?_⟩
  have hlen4 : 4 ≤ text.length := by
    have := (List.isPrefixOf_iff_prefix.mp hp).length_le
    simpa using this
  apply (commentHtml_isSome_iff o out text).mpr
  unfold truncComment
  cases hidx : indexOfSub "-->".data text with
  | none => simpa using hlen4
  | some i =>
    have hocc := indexOfSub_some_prefix "-->".data text i hidx
    have hi4 : 4 ≤ i := hall i hocc
    show 4 ≤ (if 0 < i then List.take i text else text).length
    rw [if_pos (show 0 < i by omega), List.length_take]
    omega

/-- C10 witness: an input with the comment opener and no terminator at all
is sliced safely. -/
theorem commentHtml_slice_safety_witness :
    (CommentHtml ⟨1, 0, Matter.front, [], none⟩ [] "<!--abcd".data).isSome := by
  apply (commentHtml_slice_safety ⟨1, 0, Matter.front, [], none⟩ [] "<!--abcd".data).2
  refine ⟨by decide, fun j hj => ?_⟩
  have hnone := indexOfSub_none_prefix "-->".data "<!--abcd".data (by decide) j
  rw [hnone] at hj
  simp at hj

end Mmark
